import Mathlib

/-
Verification of the Furi bounded message queue
(src/furi/core/message_queue.c) against its specification.

The C file is a thin wrapper over FreeRTOS queue primitives
(xQueueSendToBack, xQueueReceive, ...) which are not part of this
repository's sources; those primitives are modelled from the spec
(spec.md sections 3, 4) as a ring buffer of fixed-size message slots
with head/tail indices and an occupancy count.

Embedding choices:
- `furi_kernel_is_irq_or_masked()` is an external context classifier; it
  is passed to each operation as a boolean argument `irq`.
- C pointers that may be NULL are `Option`: a `none` message pointer is
  a NULL pointer.  For `get`, the out-pointer is `Option Unit` (NULL or
  not) and the bytes written through it on success are returned as an
  `Option Msg` component of the result.
- `furi_check` failure is fatal (process-terminating); an operation that
  hits a failed `furi_check` returns `none` at the outer `Option` level.
- Blocking is resolved sequentially: a queue that is full (resp. empty)
  stays full (resp. empty) for the whole wait, so a blocking call with
  any timeout fails exactly when the non-blocking one would.  This is
  the hypothesis under which the timeout-related claims are stated.
-/

/-- Status codes returned by Furi kernel primitives (furi/core/base.h). -/
inductive FuriStatus where
  | ok
  | error
  | errorTimeout
  | errorResource
  | errorParameter
  | errorMemory
  | errorISR
deriving DecidableEq, Repr

/-- A message value: the sequence of bytes copied into or out of a slot. -/
abbrev Msg := List Nat

/-- Modelled from the spec: the FreeRTOS queue object backing a
`FuriMessageQueue` (`StaticQueue_t` and FreeRTOS `queue.c` are not under
src/).  Spec section 3: a contiguous buffer of `capacity` slots of
`message_size` bytes each, `head`/`tail` indices into the buffer, and an
occupancy `count` with `0 <= count <= capacity`. -/
structure MessageQueue where
  capacity : Nat
  message_size : Nat
  buffer : List Msg
  head : Nat
  tail : Nat
  count : Nat
deriving DecidableEq, Repr

/-- Well-formedness of a queue state: positive capacity, buffer of
exactly `capacity` slots, `head` in range, `count` within capacity, and
`tail` the slot `count` places after `head` (ring-buffer discipline). -/
def WF (q : MessageQueue) : Prop :=
  0 < q.capacity ∧ q.buffer.length = q.capacity ∧ q.head < q.capacity ∧
    q.count ≤ q.capacity ∧ q.tail = (q.head + q.count) % q.capacity

instance (q : MessageQueue) : Decidable (WF q) := by
  unfold WF; infer_instance

/-- The message stored `i` places after the read index. -/
def slot (q : MessageQueue) (i : Nat) : Msg :=
  q.buffer.getD ((q.head + i) % q.capacity) []

/-- The queued messages in FIFO order, oldest first. -/
def contents (q : MessageQueue) : List Msg :=
  (List.range q.count).map (slot q)

/-- The state after copying message `m` into the write slot: the ring
buffer gains `m` at `tail`, the write index advances by one modulo
`capacity`, and the occupancy grows by one. -/
def enqueued (q : MessageQueue) (m : Msg) : MessageQueue :=
  { q with buffer := q.buffer.set q.tail m,
           tail := (q.tail + 1) % q.capacity,
           count := q.count + 1 }

/-- The state after copying the oldest message out: the read index
advances by one modulo `capacity` and the occupancy shrinks by one. -/
def dequeued (q : MessageQueue) : MessageQueue :=
  { q with head := (q.head + 1) % q.capacity, count := q.count - 1 }

/-- Modelled from the spec: FreeRTOS `xQueueCreateStatic` (not under
src/).  Spec section 4.1: creates an empty queue (`count = 0`) over a
buffer of `capacity * message_size` bytes. -/
def xQueueCreateStatic (msg_count msg_size : Nat) : MessageQueue :=
  { capacity := msg_count, message_size := msg_size,
    buffer := List.replicate msg_count [], head := 0, tail := 0, count := 0 }

/-- Modelled from the spec: FreeRTOS `xQueueSendToBack` (not under
src/).  Spec section 4.2, task context: the message is copied to the
back slot if space is available; if the queue is full the caller waits
up to `timeout` ticks for space.  In this sequential model a full queue
remains full for the whole wait, so the call fails (returns `false`,
i.e. not `pdPASS`) exactly when the queue is full, and the `timeout`
argument does not change the result. -/
def xQueueSendToBack (q : MessageQueue) (m : Msg) (timeout : Nat) :
    Bool × MessageQueue :=
  if q.count < q.capacity then (true, enqueued q m)
  else (false, q)

/-- Modelled from the spec: FreeRTOS `xQueueSendToBackFromISR` (not
under src/).  Spec section 4.2, interrupt context: a single
non-blocking enqueue attempt; fails (not `pdTRUE`) iff the queue is
full.  The deferred context switch (`portYIELD_FROM_ISR`) has no effect
on queue state and is not modelled. -/
def xQueueSendToBackFromISR (q : MessageQueue) (m : Msg) :
    Bool × MessageQueue :=
  if q.count < q.capacity then (true, enqueued q m)
  else (false, q)

/-- Modelled from the spec: FreeRTOS `xQueueReceive` (not under src/).
Spec section 4.3, task context: on success the oldest unread message is
copied out (returned here as `some m`) and removed; if the queue is
empty the caller waits up to `timeout` ticks.  In this sequential model
an empty queue remains empty for the whole wait, so the call fails
(returns `none`, i.e. not `pdPASS`) exactly when the queue is empty. -/
def xQueueReceive (q : MessageQueue) (timeout : Nat) :
    Option Msg × MessageQueue :=
  if 0 < q.count then (some (q.buffer.getD q.head []), dequeued q)
  else (none, q)

/-- Modelled from the spec: FreeRTOS `xQueueReceiveFromISR` (not under
src/).  Spec section 4.3, interrupt context: a single non-blocking
dequeue attempt; fails iff the queue is empty. -/
def xQueueReceiveFromISR (q : MessageQueue) : Option Msg × MessageQueue :=
  if 0 < q.count then (some (q.buffer.getD q.head []), dequeued q)
  else (none, q)

/-- Modelled from the spec: FreeRTOS `xQueueReset` (not under src/).
Spec section 4.5: discards all queued messages, so `count` becomes `0`
and the read/write indices return to the start of the buffer. -/
def xQueueReset (q : MessageQueue) : MessageQueue :=
  { q with head := 0, tail := 0, count := 0 }

/-- Modelled from the spec: FreeRTOS `uxQueueMessagesWaiting` (not under
src/).  Spec section 4.4: a read-only consistent snapshot of `count`. -/
def uxQueueMessagesWaiting (q : MessageQueue) : Nat := q.count

/-- Modelled from the spec: FreeRTOS `uxQueueMessagesWaitingFromISR`
(not under src/).  Spec section 4.4: the interrupt-safe read path for
`count`; same value, read-only. -/
def uxQueueMessagesWaitingFromISR (q : MessageQueue) : Nat := q.count

/-- Modelled from the spec: FreeRTOS `uxQueueSpacesAvailable` (not under
src/).  Spec section 4.4: `capacity - count`, read atomically. -/
def uxQueueSpacesAvailable (q : MessageQueue) : Nat := q.capacity - q.count

/-- `furi_message_queue_alloc` (message_queue.c:16).  `furi_check`
requires task context and positive `msg_count`/`msg_size`; violation is
fatal (`none`).  Otherwise the queue is created empty via
`xQueueCreateStatic` over the allocated buffer. -/
def furi_message_queue_alloc (irq : Bool) (msg_count msg_size : Nat) :
    Option MessageQueue :=
  if irq = false ∧ 0 < msg_count ∧ 0 < msg_size then
    some (xQueueCreateStatic msg_count msg_size)
  else none

/-- `furi_message_queue_put` (message_queue.c:42).  Fatal (`none`) on a
null handle.  Interrupt context: NULL message or nonzero timeout is
`ErrorParameter`; otherwise one `xQueueSendToBackFromISR` attempt, full
queue is `ErrorResource`.  Task context: NULL message is
`ErrorParameter`; otherwise `xQueueSendToBack`, and on failure the
status is `ErrorTimeout` when `timeout != 0`, else `ErrorResource`. -/
def furi_message_queue_put (irq : Bool) (inst : Option MessageQueue)
    (msg_ptr : Option Msg) (timeout : Nat) :
    Option (FuriStatus × MessageQueue) :=
  match inst with
  | none => none
  | some q => some (
      if irq then
        match msg_ptr, timeout with
        | some m, 0 =>
          let r := xQueueSendToBackFromISR q m
          if r.1 then (FuriStatus.ok, r.2)
          else (FuriStatus.errorResource, r.2)
        | _, _ => (FuriStatus.errorParameter, q)
      else
        match msg_ptr with
        | none => (FuriStatus.errorParameter, q)
        | some m =>
          let r := xQueueSendToBack q m timeout
          if r.1 then (FuriStatus.ok, r.2)
          else if timeout ≠ 0 then (FuriStatus.errorTimeout, r.2)
          else (FuriStatus.errorResource, r.2))

/-- `furi_message_queue_get` (message_queue.c:82).  Fatal (`none`) on a
null handle.  Result: status, the bytes written through the out-pointer
(`none` when nothing was written), and the queue state after the call.
Interrupt context: NULL out-pointer or nonzero timeout is
`ErrorParameter`; otherwise one `xQueueReceiveFromISR` attempt, empty
queue is `ErrorResource`.  Task context: NULL out-pointer is
`ErrorParameter`; otherwise `xQueueReceive`, and on failure the status
is `ErrorTimeout` when `timeout != 0`, else `ErrorResource`. -/
def furi_message_queue_get (irq : Bool) (inst : Option MessageQueue)
    (msg_ptr : Option Unit) (timeout : Nat) :
    Option (FuriStatus × Option Msg × MessageQueue) :=
  match inst with
  | none => none
  | some q => some (
      if irq then
        match msg_ptr, timeout with
        | some _, 0 =>
          let r := xQueueReceiveFromISR q
          match r.1 with
          | some m => (FuriStatus.ok, some m, r.2)
          | none => (FuriStatus.errorResource, none, r.2)
        | _, _ => (FuriStatus.errorParameter, none, q)
      else
        match msg_ptr with
        | none => (FuriStatus.errorParameter, none, q)
        | some _ =>
          let r := xQueueReceive q timeout
          match r.1 with
          | some m => (FuriStatus.ok, some m, r.2)
          | none =>
            if timeout ≠ 0 then (FuriStatus.errorTimeout, none, r.2)
            else (FuriStatus.errorResource, none, r.2))

/-- `furi_message_queue_get_capacity` (message_queue.c:120).  Fatal on a
null handle; otherwise reads the immutable `uxLength` field. -/
def furi_message_queue_get_capacity (inst : Option MessageQueue) :
    Option Nat :=
  match inst with
  | none => none
  | some q => some q.capacity

/-- `furi_message_queue_get_message_size` (message_queue.c:132).  Fatal
on a null handle; otherwise reads the immutable `uxItemSize` field. -/
def furi_message_queue_get_message_size (inst : Option MessageQueue) :
    Option Nat :=
  match inst with
  | none => none
  | some q => some q.message_size

/-- `furi_message_queue_get_count` (message_queue.c:144).  Fatal on a
null handle; otherwise a context-appropriate read-only snapshot of
`count`.  The queue state as the call leaves it is returned alongside
the value so that the read-only claim is statable. -/
def furi_message_queue_get_count (irq : Bool) (inst : Option MessageQueue) :
    Option (Nat × MessageQueue) :=
  match inst with
  | none => none
  | some q =>
    if irq then some (uxQueueMessagesWaitingFromISR q, q)
    else some (uxQueueMessagesWaiting q, q)

/-- `furi_message_queue_get_space` (message_queue.c:160).  Fatal on a
null handle.  Interrupt context: reads `uxLength - uxMessagesWaiting`
inside a critical section; task context: `uxQueueSpacesAvailable`.
Both are read-only; the queue state as the call leaves it is returned
alongside the value. -/
def furi_message_queue_get_space (irq : Bool) (inst : Option MessageQueue) :
    Option (Nat × MessageQueue) :=
  match inst with
  | none => none
  | some q =>
    if irq then some (q.capacity - q.count, q)
    else some (uxQueueSpacesAvailable q, q)

/-- `furi_message_queue_reset` (message_queue.c:181).  Fatal on a null
handle; `ErrorISR` with no state change from interrupt context;
otherwise discards all messages via `xQueueReset` and returns `Ok`. -/
def furi_message_queue_reset (irq : Bool) (inst : Option MessageQueue) :
    Option (FuriStatus × MessageQueue) :=
  match inst with
  | none => none
  | some q =>
    if irq then some (FuriStatus.errorISR, q)
    else some (FuriStatus.ok, xQueueReset q)

/-- A task-context operation issued by the single producer or the
single consumer (message pointers non-null, timeout 0). -/
inductive QOp where
  | put (m : Msg)
  | get
  | reset
deriving DecidableEq, Repr

/-- Run one operation; returns the new state, the list of messages
accepted by a successful put (empty or a singleton), and the list of
messages returned by a successful get. -/
def runOp (q : MessageQueue) : QOp → MessageQueue × List Msg × List Msg
  | QOp.put m =>
    match furi_message_queue_put false (some q) (some m) 0 with
    | some (FuriStatus.ok, q2) => (q2, [m], [])
    | some (_, q2) => (q2, [], [])
    | none => (q, [], [])
  | QOp.get =>
    match furi_message_queue_get false (some q) (some ()) 0 with
    | some (FuriStatus.ok, some m, q2) => (q2, [], [m])
    | some (_, _, q2) => (q2, [], [])
    | none => (q, [], [])
  | QOp.reset =>
    match furi_message_queue_reset false (some q) with
    | some (_, q2) => (q2, [], [])
    | none => (q, [], [])

/-- Run a sequence of operations; returns the final state, the sequence
of messages accepted by successful puts, and the sequence of messages
returned by successful gets, each in operation order. -/
def runOps (q : MessageQueue) : List QOp → MessageQueue × List Msg × List Msg
  | [] => (q, [], [])
  | op :: ops =>
    let r := runOp q op
    let rest := runOps r.1 ops
    (rest.1, r.2.1 ++ rest.2.1, r.2.2 ++ rest.2.2)

/-- Distinct offsets below `cap` land on distinct ring-buffer slots. -/
theorem ring_index_ne (cap head i j : Nat) (hi : i < cap) (hj : j < cap)
    (hne : i ≠ j) : (head + i) % cap ≠ (head + j) % cap := by
  intro h
  have h2 : Nat.ModEq cap i j := Nat.ModEq.add_left_cancel' head h
  have h3 : i % cap = j % cap := h2
  rw [Nat.mod_eq_of_lt hi, Nat.mod_eq_of_lt hj] at h3
  exact hne h3

/-- An empty queue has no contents. -/
theorem contents_eq_nil (q : MessageQueue) (h : q.count = 0) :
    contents q = [] := by
  simp [contents, h]

/-- A full queue refuses `xQueueSendToBack` and is left unchanged. -/
theorem xQueueSendToBack_full (q : MessageQueue) (m : Msg) (t : Nat)
    (h : q.capacity ≤ q.count) : xQueueSendToBack q m t = (false, q) := by
  unfold xQueueSendToBack
  rw [if_neg (by omega)]


/-- An empty queue refuses `xQueueReceive` and is left unchanged. -/
theorem xQueueReceive_empty (q : MessageQueue) (t : Nat)
    (h : q.count = 0) : xQueueReceive q t = (none, q) := by
  unfold xQueueReceive
  rw [if_neg (by omega)]

/-- Enqueuing into a well-formed non-full queue appends the message to
the contents. -/
theorem enqueued_contents (q : MessageQueue) (m : Msg)
    (hwf : WF q) (h : q.count < q.capacity) :
    contents (enqueued q m) = contents q ++ [m] := by
  obtain ⟨hcap, hlen, hhead, hcnt, htail⟩ := hwf
  have htail_lt : q.tail < q.buffer.length := by
    rw [hlen, htail]; exact Nat.mod_lt _ hcap
  have hcount : (enqueued q m).count = q.count + 1 := rfl
  unfold contents
  rw [hcount, List.range_succ, List.map_append, List.map_singleton]
  have h1 : slot (enqueued q m) q.count = m := by
    unfold slot enqueued
    dsimp only
    rw [← htail, List.getD_eq_getElem?_getD, List.getElem?_set_self htail_lt]
    rfl
  have h2 : ∀ i ∈ List.range q.count, slot (enqueued q m) i = slot q i := by
    intro i hi
    rw [List.mem_range] at hi
    unfold slot enqueued
    dsimp only
    rw [List.getD_eq_getElem?_getD, List.getD_eq_getElem?_getD,
      List.getElem?_set_ne]
    rw [htail]
    exact ring_index_ne q.capacity q.head q.count i h (by omega) (by omega)
  rw [List.map_congr_left h2, h1]

/-- Enqueuing into a well-formed non-full queue preserves
well-formedness. -/
theorem enqueued_WF (q : MessageQueue) (m : Msg)
    (hwf : WF q) (h : q.count < q.capacity) : WF (enqueued q m) := by
  obtain ⟨hcap, hlen, hhead, hcnt, htail⟩ := hwf
  refine ⟨hcap, ?_, hhead, by dsimp only [enqueued]; omega, ?_⟩
  · show (q.buffer.set q.tail m).length = q.capacity
    rw [List.length_set, hlen]
  · show (q.tail + 1) % q.capacity = (q.head + (q.count + 1)) % q.capacity
    rw [htail, Nat.mod_add_mod, Nat.add_assoc]

/-- Dequeuing from a well-formed non-empty queue removes the oldest
message: the old contents are that message followed by the new
contents. -/
theorem dequeued_contents (q : MessageQueue)
    (hwf : WF q) (h : 0 < q.count) :
    contents q = q.buffer.getD q.head [] :: contents (dequeued q) := by
  obtain ⟨hcap, hlen, hhead, hcnt, htail⟩ := hwf
  have hcount : (dequeued q).count = q.count - 1 := rfl
  have hc : q.count = (q.count - 1) + 1 := by omega
  unfold contents
  rw [hcount]
  conv_lhs => rw [hc]
  rw [List.range_succ_eq_map, List.map_cons, List.map_map]
  have h0 : slot q 0 = q.buffer.getD q.head [] := by
    unfold slot
    rw [Nat.add_zero, Nat.mod_eq_of_lt hhead]
  rw [h0]
  congr 1
  refine List.map_congr_left ?_
  intro i hi
  show slot q (Nat.succ i) = slot (dequeued q) i
  unfold slot dequeued
  dsimp only
  rw [Nat.mod_add_mod]
  have he : q.head + Nat.succ i = q.head + 1 + i := by omega
  rw [he]

/-- Dequeuing from a well-formed non-empty queue preserves
well-formedness. -/
theorem dequeued_WF (q : MessageQueue)
    (hwf : WF q) (h : 0 < q.count) : WF (dequeued q) := by
  obtain ⟨hcap, hlen, hhead, hcnt, htail⟩ := hwf
  refine ⟨hcap, hlen, Nat.mod_lt _ hcap, by dsimp only [dequeued]; omega, ?_⟩
  show q.tail = ((q.head + 1) % q.capacity + (q.count - 1)) % q.capacity
  rw [Nat.mod_add_mod, htail]
  congr 1
  omega

/-- Resetting a well-formed queue yields a well-formed empty queue. -/
theorem xQueueReset_WF (q : MessageQueue) (hwf : WF q) :
    WF (xQueueReset q) := by
  obtain ⟨hcap, hlen, hhead, hcnt, htail⟩ := hwf
  exact ⟨hcap, hlen, hcap, by dsimp only [xQueueReset]; omega, by simp [xQueueReset]⟩

/-- A non-full queue accepts `xQueueSendToBack`. -/
theorem xQueueSendToBack_notFull (q : MessageQueue) (m : Msg) (t : Nat)
    (h : q.count < q.capacity) :
    xQueueSendToBack q m t = (true, enqueued q m) := by
  unfold xQueueSendToBack
  rw [if_pos h]

/-- A non-empty queue yields its oldest message to `xQueueReceive`. -/
theorem xQueueReceive_notEmpty (q : MessageQueue) (t : Nat)
    (h : 0 < q.count) :
    xQueueReceive q t = (some (q.buffer.getD q.head []), dequeued q) := by
  unfold xQueueReceive
  rw [if_pos h]

/-- A put against a full queue is rejected and changes nothing. -/
theorem runOp_put_full (q : MessageQueue) (m : Msg)
    (h : q.capacity ≤ q.count) : runOp q (QOp.put m) = (q, [], []) := by
  simp only [runOp, furi_message_queue_put, xQueueSendToBack_full q m 0 h]
  rfl

/-- A put against a non-full queue enqueues the message. -/
theorem runOp_put_succ (q : MessageQueue) (m : Msg)
    (h : q.count < q.capacity) :
    runOp q (QOp.put m) = (enqueued q m, [m], []) := by
  simp only [runOp, furi_message_queue_put, xQueueSendToBack_notFull q m 0 h]
  rfl

/-- A get against an empty queue is rejected and changes nothing. -/
theorem runOp_get_empty (q : MessageQueue)
    (h : q.count = 0) : runOp q QOp.get = (q, [], []) := by
  simp only [runOp, furi_message_queue_get, xQueueReceive_empty q 0 h]
  rfl

/-- A get against a non-empty queue dequeues the oldest message. -/
theorem runOp_get_succ (q : MessageQueue)
    (h : 0 < q.count) :
    runOp q QOp.get = (dequeued q, [], [q.buffer.getD q.head []]) := by
  simp only [runOp, furi_message_queue_get, xQueueReceive_notEmpty q 0 h]
  rfl

/-- A task-context reset empties the queue. -/
theorem runOp_reset (q : MessageQueue) :
    runOp q QOp.reset = (xQueueReset q, [], []) := by
  rfl

/-- Each operation preserves well-formedness. -/
theorem runOp_WF (q : MessageQueue) (op : QOp) (hwf : WF q) :
    WF (runOp q op).1 := by
  cases op with
  | put m =>
    rcases Nat.lt_or_ge q.count q.capacity with h | h
    · rw [runOp_put_succ q m h]
      exact enqueued_WF q m hwf h
    · rw [runOp_put_full q m h]
      exact hwf
  | get =>
    rcases Nat.eq_zero_or_pos q.count with h | h
    · rw [runOp_get_empty q h]
      exact hwf
    · rw [runOp_get_succ q h]
      exact dequeued_WF q hwf h
  | reset =>
    rw [runOp_reset q]
    exact xQueueReset_WF q hwf

/-- Each operation preserves the capacity and message-size fields. -/
theorem runOp_frame (q : MessageQueue) (op : QOp) :
    (runOp q op).1.capacity = q.capacity ∧
    (runOp q op).1.message_size = q.message_size := by
  cases op with
  | put m =>
    rcases Nat.lt_or_ge q.count q.capacity with h | h
    · rw [runOp_put_succ q m h]
      exact ⟨rfl, rfl⟩
    · rw [runOp_put_full q m h]
      exact ⟨rfl, rfl⟩
  | get =>
    rcases Nat.eq_zero_or_pos q.count with h | h
    · rw [runOp_get_empty q h]
      exact ⟨rfl, rfl⟩
    · rw [runOp_get_succ q h]
      exact ⟨rfl, rfl⟩
  | reset =>
    exact ⟨rfl, rfl⟩

/-- Each non-reset operation keeps the FIFO balance: the messages
returned so far followed by the messages still queued equal the
messages previously queued plus those accepted. -/
theorem runOp_fifo (q : MessageQueue) (op : QOp) (hwf : WF q)
    (hop : op ≠ QOp.reset) :
    (runOp q op).2.2 ++ contents (runOp q op).1 =
      contents q ++ (runOp q op).2.1 := by
  cases op with
  | put m =>
    rcases Nat.lt_or_ge q.count q.capacity with h | h
    · rw [runOp_put_succ q m h]
      dsimp only
      rw [enqueued_contents q m hwf h, List.nil_append]
    · rw [runOp_put_full q m h]
      simp
  | get =>
    rcases Nat.eq_zero_or_pos q.count with h | h
    · rw [runOp_get_empty q h]
      simp
    · rw [runOp_get_succ q h]
      dsimp only
      rw [dequeued_contents q hwf h]
      simp
  | reset =>
    exact absurd rfl hop

/-- Well-formedness is preserved along any operation sequence. -/
theorem runOps_WF (ops : List QOp) (q : MessageQueue) (hwf : WF q) :
    WF (runOps q ops).1 := by
  induction ops generalizing q with
  | nil => exact hwf
  | cons op ops ih =>
    exact ih (runOp q op).1 (runOp_WF q op hwf)

/-- Capacity and message size are preserved along any operation
sequence. -/
theorem runOps_frame (ops : List QOp) (q : MessageQueue) :
    (runOps q ops).1.capacity = q.capacity ∧
    (runOps q ops).1.message_size = q.message_size := by
  induction ops generalizing q with
  | nil => exact ⟨rfl, rfl⟩
  | cons op ops ih =>
    obtain ⟨h1, h2⟩ := ih (runOp q op).1
    obtain ⟨h3, h4⟩ := runOp_frame q op
    exact ⟨h1.trans h3, h2.trans h4⟩

/-- FIFO balance along any reset-free operation sequence: the sequence
of messages returned by successful gets, followed by the messages still
queued at the end, equals the messages queued at the start followed by
the sequence accepted by successful puts. -/
theorem runOps_fifo (ops : List QOp) (q : MessageQueue) (hwf : WF q)
    (hnr : ∀ op ∈ ops, op ≠ QOp.reset) :
    (runOps q ops).2.2 ++ contents (runOps q ops).1 =
      contents q ++ (runOps q ops).2.1 := by
  induction ops generalizing q with
  | nil => simp [runOps]
  | cons op ops ih =>
    have hop : op ≠ QOp.reset := hnr op (List.mem_cons_self op ops)
    have hrest : ∀ o ∈ ops, o ≠ QOp.reset := fun o ho =>
      hnr o (List.mem_cons_of_mem op ho)
    have h1 := runOp_fifo q op hwf hop
    have h2 := ih (runOp q op).1 (runOp_WF q op hwf) hrest
    show ((runOp q op).2.2 ++ (runOps (runOp q op).1 ops).2.2) ++
        contents (runOps (runOp q op).1 ops).1 =
      contents q ++ ((runOp q op).2.1 ++ (runOps (runOp q op).1 ops).2.1)
    rw [List.append_assoc, h2, ← List.append_assoc, h1, List.append_assoc]

/-- A full queue refuses `xQueueSendToBackFromISR` and is unchanged. -/
theorem xQueueSendToBackFromISR_full (q : MessageQueue) (m : Msg)
    (h : q.capacity ≤ q.count) : xQueueSendToBackFromISR q m = (false, q) := by
  unfold xQueueSendToBackFromISR
  rw [if_neg (by omega)]

/-- A non-full queue accepts `xQueueSendToBackFromISR`. -/
theorem xQueueSendToBackFromISR_notFull (q : MessageQueue) (m : Msg)
    (h : q.count < q.capacity) :
    xQueueSendToBackFromISR q m = (true, enqueued q m) := by
  unfold xQueueSendToBackFromISR
  rw [if_pos h]

/-- An empty queue refuses `xQueueReceiveFromISR` and is unchanged. -/
theorem xQueueReceiveFromISR_empty (q : MessageQueue)
    (h : q.count = 0) : xQueueReceiveFromISR q = (none, q) := by
  unfold xQueueReceiveFromISR
  rw [if_neg (by omega)]

/-- A non-empty queue yields its oldest message to
`xQueueReceiveFromISR`. -/
theorem xQueueReceiveFromISR_notEmpty (q : MessageQueue)
    (h : 0 < q.count) :
    xQueueReceiveFromISR q = (some (q.buffer.getD q.head []), dequeued q) := by
  unfold xQueueReceiveFromISR
  rw [if_pos h]

/-- A concrete well-formed full queue: capacity 2, both slots taken. -/
def qFull : MessageQueue :=
  { capacity := 2, message_size := 1, buffer := [[1], [2]], head := 0,
    tail := 0, count := 2 }

/-- A concrete well-formed empty queue: capacity 2, message size 1. -/
def qEmpty : MessageQueue :=
  { capacity := 2, message_size := 1, buffer := [[], []], head := 0,
    tail := 0, count := 0 }

/-- C1: From task context with a non-null message, a put against a
queue that stays full for the whole wait returns `ErrorTimeout` when
`timeout != 0` and `ErrorResource` when `timeout == 0`, and
symmetrically a get against a queue that stays empty; when space (resp.
a message) is available the operation returns `Ok`. -/
theorem C1_task_timeout_status (q : MessageQueue) (m : Msg) (t : Nat) :
    (q.capacity ≤ q.count →
      furi_message_queue_put false (some q) (some m) t =
        some (if t = 0 then FuriStatus.errorResource
              else FuriStatus.errorTimeout, q)) ∧
    (q.count < q.capacity →
      (furi_message_queue_put false (some q) (some m) t).map Prod.fst =
        some FuriStatus.ok) ∧
    (q.count = 0 →
      furi_message_queue_get false (some q) (some ()) t =
        some (if t = 0 then FuriStatus.errorResource
              else FuriStatus.errorTimeout, none, q)) ∧
    (0 < q.count →
      (furi_message_queue_get false (some q) (some ()) t).map Prod.fst =
        some FuriStatus.ok) := by
  refine ⟨?_, ?_, ?_, ?_⟩
  · intro h
    simp only [furi_message_queue_put, xQueueSendToBack_full q m t h]
    rcases Nat.eq_zero_or_pos t with ht | ht
    · subst ht
      rfl
    · have ht2 : t ≠ 0 := by omega
      simp [ht2]
  · intro h
    simp only [furi_message_queue_put, xQueueSendToBack_notFull q m t h]
    rfl
  · intro h
    simp only [furi_message_queue_get, xQueueReceive_empty q t h]
    rcases Nat.eq_zero_or_pos t with ht | ht
    · subst ht
      rfl
    · have ht2 : t ≠ 0 := by omega
      simp [ht2]
  · intro h
    simp only [furi_message_queue_get, xQueueReceive_notEmpty q t h]
    rfl

/-- Witness for C1 at concrete queues. -/
theorem C1_task_timeout_status_witness :
    furi_message_queue_put false (some qFull) (some [7]) 5 =
      some (FuriStatus.errorTimeout, qFull) ∧
    furi_message_queue_put false (some qFull) (some [7]) 0 =
      some (FuriStatus.errorResource, qFull) ∧
    (furi_message_queue_put false (some qEmpty) (some [7]) 5).map Prod.fst =
      some FuriStatus.ok ∧
    furi_message_queue_get false (some qEmpty) (some ()) 5 =
      some (FuriStatus.errorTimeout, none, qEmpty) ∧
    (furi_message_queue_get false (some qFull) (some ()) 0).map Prod.fst =
      some FuriStatus.ok := by
  refine ⟨?_, ?_, ?_, ?_, ?_⟩
  · simpa using (C1_task_timeout_status qFull [7] 5).1 (by decide)
  · simpa using (C1_task_timeout_status qFull [7] 0).1 (by decide)
  · exact (C1_task_timeout_status qEmpty [7] 5).2.1 (by decide)
  · simpa using (C1_task_timeout_status qEmpty [7] 5).2.2.1 (by decide)
  · exact (C1_task_timeout_status qFull [7] 0).2.2.2 (by decide)

/-- C2: From interrupt context, put and get return `ErrorParameter`
without touching the queue when the message pointer is null or the
timeout is nonzero; otherwise a single non-blocking attempt returns
`ErrorResource` on a full (put) or empty (get) queue, leaving it
unchanged, and `Ok` on success. -/
theorem C2_isr_put_get (q : MessageQueue) (m : Msg) (t : Nat) :
    (furi_message_queue_put true (some q) none t =
      some (FuriStatus.errorParameter, q)) ∧
    (t ≠ 0 → furi_message_queue_put true (some q) (some m) t =
      some (FuriStatus.errorParameter, q)) ∧
    (q.capacity ≤ q.count →
      furi_message_queue_put true (some q) (some m) 0 =
        some (FuriStatus.errorResource, q)) ∧
    (q.count < q.capacity →
      (furi_message_queue_put true (some q) (some m) 0).map Prod.fst =
        some FuriStatus.ok) ∧
    (furi_message_queue_get true (some q) none t =
      some (FuriStatus.errorParameter, none, q)) ∧
    (t ≠ 0 → furi_message_queue_get true (some q) (some ()) t =
      some (FuriStatus.errorParameter, none, q)) ∧
    (q.count = 0 →
      furi_message_queue_get true (some q) (some ()) 0 =
        some (FuriStatus.errorResource, none, q)) ∧
    (0 < q.count →
      (furi_message_queue_get true (some q) (some ()) 0).map Prod.fst =
        some FuriStatus.ok) := by
  refine ⟨?_, ?_, ?_, ?_, ?_, ?_, ?_, ?_⟩
  · cases t with
    | zero => rfl
    | succ n => rfl
  · intro ht
    cases t with
    | zero => exact absurd rfl ht
    | succ n => rfl
  · intro h
    simp only [furi_message_queue_put, xQueueSendToBackFromISR_full q m h]
    rfl
  · intro h
    simp only [furi_message_queue_put, xQueueSendToBackFromISR_notFull q m h]
    rfl
  · cases t with
    | zero => rfl
    | succ n => rfl
  · intro ht
    cases t with
    | zero => exact absurd rfl ht
    | succ n => rfl
  · intro h
    simp only [furi_message_queue_get, xQueueReceiveFromISR_empty q h]
    rfl
  · intro h
    simp only [furi_message_queue_get, xQueueReceiveFromISR_notEmpty q h]
    rfl

/-- Witness for C2 at concrete queues. -/
theorem C2_isr_put_get_witness :
    furi_message_queue_put true (some qFull) none 0 =
      some (FuriStatus.errorParameter, qFull) ∧
    furi_message_queue_put true (some qEmpty) (some [7]) 3 =
      some (FuriStatus.errorParameter, qEmpty) ∧
    furi_message_queue_put true (some qFull) (some [7]) 0 =
      some (FuriStatus.errorResource, qFull) ∧
    (furi_message_queue_put true (some qEmpty) (some [7]) 0).map Prod.fst =
      some FuriStatus.ok ∧
    furi_message_queue_get true (some qEmpty) (some ()) 3 =
      some (FuriStatus.errorParameter, none, qEmpty) ∧
    furi_message_queue_get true (some qEmpty) (some ()) 0 =
      some (FuriStatus.errorResource, none, qEmpty) ∧
    (furi_message_queue_get true (some qFull) (some ()) 0).map Prod.fst =
      some FuriStatus.ok := by
  refine ⟨?_, ?_, ?_, ?_, ?_, ?_, ?_⟩
  · exact (C2_isr_put_get qFull [7] 0).1
  · exact (C2_isr_put_get qEmpty [7] 3).2.1 (by decide)
  · exact (C2_isr_put_get qFull [7] 0).2.2.1 (by decide)
  · exact (C2_isr_put_get qEmpty [7] 0).2.2.2.1 (by decide)
  · exact (C2_isr_put_get qEmpty [7] 3).2.2.2.2.2.1 (by decide)
  · exact (C2_isr_put_get qEmpty [7] 0).2.2.2.2.2.2.1 (by decide)
  · exact (C2_isr_put_get qFull [7] 0).2.2.2.2.2.2.2 (by decide)

/-- C3: Single-producer single-consumer FIFO: along any reset-free
sequence of task-context operations starting from an empty queue, the
sequence of messages returned by successful gets, followed by the
messages still queued, equals the sequence of messages passed to
successful puts, in order; in particular, whenever the queue has
drained the two sequences are equal. -/
theorem C3_fifo_order (q : MessageQueue) (ops : List QOp) (hwf : WF q)
    (h0 : q.count = 0) (hnr : ∀ op ∈ ops, op ≠ QOp.reset) :
    (runOps q ops).2.2 ++ contents (runOps q ops).1 = (runOps q ops).2.1 ∧
    ((runOps q ops).1.count = 0 →
      (runOps q ops).2.2 = (runOps q ops).2.1) := by
  have h := runOps_fifo ops q hwf hnr
  rw [contents_eq_nil q h0, List.nil_append] at h
  refine ⟨h, fun hc => ?_⟩
  rw [contents_eq_nil _ hc, List.append_nil] at h
  exact h

/-- Witness for C3 on a concrete put/put/get/get trace. -/
theorem C3_fifo_order_witness :
    (runOps qEmpty [QOp.put [1], QOp.put [2], QOp.get, QOp.get]).2.2 ++
        contents (runOps qEmpty [QOp.put [1], QOp.put [2], QOp.get, QOp.get]).1 =
      (runOps qEmpty [QOp.put [1], QOp.put [2], QOp.get, QOp.get]).2.1 ∧
    ((runOps qEmpty [QOp.put [1], QOp.put [2], QOp.get, QOp.get]).1.count = 0 →
      (runOps qEmpty [QOp.put [1], QOp.put [2], QOp.get, QOp.get]).2.2 =
        (runOps qEmpty [QOp.put [1], QOp.put [2], QOp.get, QOp.get]).2.1) :=
  C3_fifo_order qEmpty [QOp.put [1], QOp.put [2], QOp.get, QOp.get]
    (by decide) (by decide) (by decide)

/-- C4: On an empty queue, putting a message of exactly `message_size`
bytes and immediately getting returns `Ok` for both, yields the same
bytes, and leaves the queue with `count = 0`. -/
theorem C4_roundtrip (q : MessageQueue) (m : Msg) (hwf : WF q)
    (h0 : q.count = 0) (hm : m.length = q.message_size) :
    ∃ q1 q2,
      furi_message_queue_put false (some q) (some m) 0 =
        some (FuriStatus.ok, q1) ∧
      furi_message_queue_get false (some q1) (some ()) 0 =
        some (FuriStatus.ok, some m, q2) ∧
      q2.count = 0 := by
  obtain ⟨hcap, hlen, hhead, hcnt, htail⟩ := hwf
  have hlt : q.count < q.capacity := by omega
  refine ⟨enqueued q m, dequeued (enqueued q m), ?_, ?_, ?_⟩
  · simp only [furi_message_queue_put, xQueueSendToBack_notFull q m 0 hlt]
    rfl
  · have hpos : 0 < (enqueued q m).count := by
      show 0 < q.count + 1
      omega
    simp only [furi_message_queue_get,
      xQueueReceive_notEmpty (enqueued q m) 0 hpos]
    have htl : q.tail = q.head := by
      rw [htail, h0, Nat.add_zero, Nat.mod_eq_of_lt hhead]
    have hbytes : (enqueued q m).buffer.getD (enqueued q m).head [] = m := by
      show (q.buffer.set q.tail m).getD q.head [] = m
      rw [htl, List.getD_eq_getElem?_getD,
        List.getElem?_set_self (by rw [hlen]; exact hhead)]
      rfl
    rw [hbytes]
    rfl
  · show q.count + 1 - 1 = 0
    omega

/-- Witness for C4: round trip of the one-byte message `[5]` through a
concrete empty queue. -/
theorem C4_roundtrip_witness :
    ∃ q1 q2,
      furi_message_queue_put false (some qEmpty) (some [5]) 0 =
        some (FuriStatus.ok, q1) ∧
      furi_message_queue_get false (some q1) (some ()) 0 =
        some (FuriStatus.ok, some [5], q2) ∧
      q2.count = 0 :=
  C4_roundtrip qEmpty [5] (by decide) (by decide) (by decide)

/-- C5: Along every put/get/reset sequence on a created queue, the
occupancy satisfies `0 <= count <= capacity`, `get_count` never returns
a value above the capacity, and `get_space` always returns exactly
`capacity - count`, which is never negative. -/
theorem C5_occupancy_bounds (irq : Bool) (c s : Nat) (q0 : MessageQueue)
    (halloc : furi_message_queue_alloc false c s = some q0)
    (ops : List QOp) :
    0 ≤ (runOps q0 ops).1.count ∧
    (runOps q0 ops).1.count ≤ (runOps q0 ops).1.capacity ∧
    (∃ n, furi_message_queue_get_count irq (some ((runOps q0 ops).1)) =
        some (n, (runOps q0 ops).1) ∧ n ≤ (runOps q0 ops).1.capacity) ∧
    (∃ n, furi_message_queue_get_space irq (some ((runOps q0 ops).1)) =
        some (n, (runOps q0 ops).1) ∧
      (n : Int) = ((runOps q0 ops).1.capacity : Int) -
        ((runOps q0 ops).1.count : Int) ∧ 0 ≤ (n : Int)) := by
  have hcond : (false = false ∧ 0 < c ∧ 0 < s) := by
    by_contra hnc
    rw [furi_message_queue_alloc, if_neg hnc] at halloc
    exact Option.noConfusion halloc
  have hq0 : q0 = xQueueCreateStatic c s := by
    rw [furi_message_queue_alloc, if_pos hcond] at halloc
    exact (Option.some.inj halloc).symm
  have hwf0 : WF q0 := by
    rw [hq0]
    exact ⟨hcond.2.1, by simp [xQueueCreateStatic], hcond.2.1,
      by simp [xQueueCreateStatic], by simp [xQueueCreateStatic]⟩
  have hwf := runOps_WF ops q0 hwf0
  obtain ⟨hcap, hlen, hhead, hcnt, htail⟩ := hwf
  refine ⟨Nat.zero_le _, hcnt,
    ⟨(runOps q0 ops).1.count, ?_, hcnt⟩,
    ⟨(runOps q0 ops).1.capacity - (runOps q0 ops).1.count, ?_, ?_, ?_⟩⟩
  · cases irq <;> rfl
  · cases irq <;> rfl
  · omega
  · omega

/-- Witness for C5 on a concrete queue and trace. -/
theorem C5_occupancy_bounds_witness :
    0 ≤ (runOps (xQueueCreateStatic 2 1)
        [QOp.put [3], QOp.put [4], QOp.put [5], QOp.get]).1.count ∧
    (runOps (xQueueCreateStatic 2 1)
        [QOp.put [3], QOp.put [4], QOp.put [5], QOp.get]).1.count ≤
      (runOps (xQueueCreateStatic 2 1)
        [QOp.put [3], QOp.put [4], QOp.put [5], QOp.get]).1.capacity ∧
    (∃ n, furi_message_queue_get_count true
        (some ((runOps (xQueueCreateStatic 2 1)
          [QOp.put [3], QOp.put [4], QOp.put [5], QOp.get]).1)) =
        some (n, (runOps (xQueueCreateStatic 2 1)
          [QOp.put [3], QOp.put [4], QOp.put [5], QOp.get]).1) ∧
      n ≤ (runOps (xQueueCreateStatic 2 1)
          [QOp.put [3], QOp.put [4], QOp.put [5], QOp.get]).1.capacity) ∧
    (∃ n, furi_message_queue_get_space true
        (some ((runOps (xQueueCreateStatic 2 1)
          [QOp.put [3], QOp.put [4], QOp.put [5], QOp.get]).1)) =
        some (n, (runOps (xQueueCreateStatic 2 1)
          [QOp.put [3], QOp.put [4], QOp.put [5], QOp.get]).1) ∧
      (n : Int) = ((runOps (xQueueCreateStatic 2 1)
          [QOp.put [3], QOp.put [4], QOp.put [5], QOp.get]).1.capacity : Int) -
        ((runOps (xQueueCreateStatic 2 1)
          [QOp.put [3], QOp.put [4], QOp.put [5], QOp.get]).1.count : Int) ∧
      0 ≤ (n : Int)) :=
  C5_occupancy_bounds true 2 1 (xQueueCreateStatic 2 1) (by decide)
    [QOp.put [3], QOp.put [4], QOp.put [5], QOp.get]

/-- C6: Reset from task context discards all queued messages, making
`count` zero regardless of the prior state, and returns `Ok`; reset
from interrupt context returns `ErrorISR` and leaves the queue
completely unchanged. -/
theorem C6_reset_behavior (q : MessageQueue) :
    furi_message_queue_reset true (some q) =
      some (FuriStatus.errorISR, q) ∧
    (∃ q2, furi_message_queue_reset false (some q) =
      some (FuriStatus.ok, q2) ∧ q2.count = 0) :=
  ⟨rfl, xQueueReset q, rfl, rfl⟩

/-- C7: A put or get returning a status other than `Ok` leaves the
queue state (count, head, tail, stored messages) exactly as before the
call, and a failed get additionally writes nothing through the
out-pointer: no partial message copy is observable. -/
theorem C7_failure_no_effect (irq : Bool) (q : MessageQueue) (t : Nat)
    (s : FuriStatus) (q2 : MessageQueue) :
    (∀ msg_ptr,
      furi_message_queue_put irq (some q) msg_ptr t = some (s, q2) →
      s ≠ FuriStatus.ok → q2 = q) ∧
    (∀ out_ptr r,
      furi_message_queue_get irq (some q) out_ptr t = some (s, r, q2) →
      s ≠ FuriStatus.ok → q2 = q ∧ r = none) := by
  constructor
  · intro msg_ptr h hs
    cases irq with
    | false =>
      rcases msg_ptr with _ | m
      · simp [furi_message_queue_put] at h
        exact h.2.symm
      · rcases Nat.lt_or_ge q.count q.capacity with hc | hc
        · simp [furi_message_queue_put, xQueueSendToBack_notFull q m t hc] at h
          exact absurd h.1.symm hs
        · rcases Nat.eq_zero_or_pos t with ht | ht
          · subst ht
            simp [furi_message_queue_put, xQueueSendToBack_full q m 0 hc] at h
            exact h.2.symm
          · have ht2 : t ≠ 0 := by omega
            simp [furi_message_queue_put, xQueueSendToBack_full q m t hc,
              ht2] at h
            exact h.2.symm
    | true =>
      rcases msg_ptr with _ | m
      · cases t with
        | zero =>
          simp [furi_message_queue_put] at h
          exact h.2.symm
        | succ n =>
          simp [furi_message_queue_put] at h
          exact h.2.symm
      · cases t with
        | zero =>
          rcases Nat.lt_or_ge q.count q.capacity with hc | hc
          · simp [furi_message_queue_put,
              xQueueSendToBackFromISR_notFull q m hc] at h
            exact absurd h.1.symm hs
          · simp [furi_message_queue_put,
              xQueueSendToBackFromISR_full q m hc] at h
            exact h.2.symm
        | succ n =>
          simp [furi_message_queue_put] at h
          exact h.2.symm
  · intro out_ptr r h hs
    cases irq with
    | false =>
      rcases out_ptr with _ | u
      · simp [furi_message_queue_get] at h
        exact ⟨h.2.2.symm, h.2.1.symm⟩
      · rcases Nat.eq_zero_or_pos q.count with hc | hc
        · rcases Nat.eq_zero_or_pos t with ht | ht
          · subst ht
            simp [furi_message_queue_get, xQueueReceive_empty q 0 hc] at h
            exact ⟨h.2.2.symm, h.2.1.symm⟩
          · have ht2 : t ≠ 0 := by omega
            simp [furi_message_queue_get, xQueueReceive_empty q t hc,
              ht2] at h
            exact ⟨h.2.2.symm, h.2.1.symm⟩
        · simp [furi_message_queue_get, xQueueReceive_notEmpty q t hc] at h
          exact absurd h.1.symm hs
    | true =>
      rcases out_ptr with _ | u
      · cases t with
        | zero =>
          simp [furi_message_queue_get] at h
          exact ⟨h.2.2.symm, h.2.1.symm⟩
        | succ n =>
          simp [furi_message_queue_get] at h
          exact ⟨h.2.2.symm, h.2.1.symm⟩
      · cases t with
        | zero =>
          rcases Nat.eq_zero_or_pos q.count with hc | hc
          · simp [furi_message_queue_get, xQueueReceiveFromISR_empty q hc] at h
            exact ⟨h.2.2.symm, h.2.1.symm⟩
          · simp [furi_message_queue_get,
              xQueueReceiveFromISR_notEmpty q hc] at h
            exact absurd h.1.symm hs
        | succ n =>
          simp [furi_message_queue_get] at h
          exact ⟨h.2.2.symm, h.2.1.symm⟩

/-- Witness for C7: a put rejected by a full queue and a get rejected
by an empty queue leave the respective queues unchanged. -/
theorem C7_failure_no_effect_witness :
    qFull = qFull ∧ (qEmpty = qEmpty ∧ (none : Option Msg) = none) := by
  constructor
  · exact (C7_failure_no_effect false qFull 0 FuriStatus.errorResource
      qFull).1 (some [7]) (by decide) (by decide)
  · exact (C7_failure_no_effect false qEmpty 0 FuriStatus.errorResource
      qEmpty).2 (some ()) none (by decide) (by decide)

/-- C9: Capacity and message size are fixed at creation: no sequence
of put/get/reset operations changes them, and the two getters always
return the creation-time values. -/
theorem C9_capacity_size_immutable (q : MessageQueue) (ops : List QOp) :
    (runOps q ops).1.capacity = q.capacity ∧
    (runOps q ops).1.message_size = q.message_size ∧
    furi_message_queue_get_capacity (some ((runOps q ops).1)) =
      some q.capacity ∧
    furi_message_queue_get_message_size (some ((runOps q ops).1)) =
      some q.message_size := by
  obtain ⟨h1, h2⟩ := runOps_frame ops q
  refine ⟨h1, h2, ?_, ?_⟩
  · show some ((runOps q ops).1.capacity) = some q.capacity
    rw [h1]
  · show some ((runOps q ops).1.message_size) = some q.message_size
    rw [h2]

/-- C10: The queries `get_count` and `get_space` are read-only in both
contexts: each returns its value and leaves the queue state (count,
head, tail, stored messages) exactly as it was. -/
theorem C10_queries_readonly (irq : Bool) (q : MessageQueue) :
    furi_message_queue_get_count irq (some q) = some (q.count, q) ∧
    furi_message_queue_get_space irq (some q) =
      some (q.capacity - q.count, q) := by
  cases irq <;> exact ⟨rfl, rfl⟩
